import Mathlib

/-!
Shallow embedding of the JustBus seat-reservation core (src/index.js).

The relational store (MySQL) is modelled as lists of rows.  Each HTTP
handler of the booking core becomes a pure function from request data and
a clock reading to a response and an updated store; a handler that runs a
transaction which rolls back returns the original store.

Clock readings are natural numbers (milliseconds, as in JavaScript
`Date.now()`); `NOW()` / `UTC_TIMESTAMP()` inside a handler and the
JavaScript clock are modelled as one consistent reading per request.
-/

/-- Booking status values stored in `bookings.status`.  The code writes
only these three: `'held'` at hold creation (index.js line 507),
`'confirmed'` at confirmation (line 582) and `'used'` at scan (line 665).
There is no `released` value in the code: reclaiming deletes the row. -/
inductive BStatus
  | held
  | confirmed
  | used
deriving DecidableEq, Repr

/-- A row of the `bookings` table, with the columns the core reads or
writes (index.js lines 503-518).  `totalPrice` is a rational, modelling
the exact JavaScript arithmetic `seats.length * 2.5`.  `holdExpiresAt`
is milliseconds since the epoch. -/
structure Booking where
  id : Nat
  userId : Nat
  tripId : Nat
  pickup : String
  dropoff : String
  totalPrice : ℚ
  qrToken : String
  status : BStatus
  holdExpiresAt : Nat
deriving DecidableEq, Repr

/-- A row of the `booking_seats` table (index.js lines 522-530). -/
structure SeatAlloc where
  bookingId : Nat
  tripId : Nat
  seatNumber : Nat
deriving DecidableEq, Repr

/-- The slice of a `users` row the seat-status query reads: `gender` may
be NULL in the database, hence `Option String` (index.js line 617). -/
structure User where
  id : Nat
  gender : Option String
deriving DecidableEq, Repr

/-- A row of the append-only `scan_logs` table (index.js lines 669-673). -/
structure ScanLog where
  bookingId : Nat
  scannedAt : Nat
deriving DecidableEq, Repr

/-- The store state: the tables the booking core touches, plus the ids of
existing trips (the scan handler joins `trips`, line 648) and the next
auto-increment id for `bookings.id`. -/
structure Store where
  bookings : List Booking
  bookingSeats : List SeatAlloc
  users : List User
  trips : List Nat
  scanLogs : List ScanLog
  nextBookingId : Nat
deriving DecidableEq, Repr

/-- `status = 'held' AND hold_expires_at < NOW()`: the rows deleted by the
reclaim pass (index.js lines 476-480) and by the periodic sweep
(lines 599-605). -/
def expiredHeld (now : Nat) (b : Booking) : Bool :=
  decide (b.status = BStatus.held ∧ b.holdExpiresAt < now)

/-- `DELETE FROM bookings WHERE status = 'held' AND hold_expires_at < NOW()`
(index.js lines 476-480 and 599-604).

Modelled from the spec: the repository's SQL schema (`./config/db` and the
table definitions) is not in the source tree, so whether this delete
cascades to `booking_seats` is not visible in the code.  The spec states
"SeatAllocations live and die with their Booking", so the delete is
modelled as removing the seat-allocation rows of every deleted booking
(an `ON DELETE CASCADE` foreign key). -/
def reclaim (now : Nat) (s : Store) : Store :=
  { s with
    bookings := s.bookings.filter (fun b => !expiredHeld now b),
    bookingSeats := s.bookingSeats.filter (fun a =>
      !(s.bookings.any (fun b => expiredHeld now b && decide (b.id = a.bookingId)))) }

/-- The periodic cleanup task (index.js lines 599-605) runs exactly the
same delete as the inline reclaim pass. -/
def sweep (now : Nat) (s : Store) : Store :=
  reclaim now s

/-- Response of `POST /api/bookings/hold` (index.js lines 459-549). -/
inductive HoldResp
  /-- 400, `'Missing trip data'` (line 464): `tripId`, `pickup` or
  `dropoff` is falsy. -/
  | missingTripData
  /-- 400, `'Seats are required'` (line 468): `seats` is not an array or
  is empty. -/
  | seatsRequired
  /-- 409, `'Seats already booked'` with the listed seat numbers
  (lines 494-497). -/
  | conflict (seats : List Nat)
  /-- 200 with `{bookingId, holdExpiresAt}` (lines 534-537). -/
  | ok (bookingId : Nat) (holdExpiresAt : Nat)
deriving DecidableEq, Repr

/-- The predicate of the conflict query (index.js lines 482-490):
`trip_id = ? AND seat_number IN (requested seats)` over `booking_seats`. -/
def seatTaken (tripId : Nat) (seats : List Nat) (a : SeatAlloc) : Bool :=
  decide (a.tripId = tripId ∧ a.seatNumber ∈ seats)

/-- The keys of the JSON object returned on hold success, exactly the
object literal at index.js lines 534-537: `{ bookingId, holdExpiresAt }`. -/
def createHoldSuccessKeys : List String :=
  [("bookingId"), ("holdExpiresAt")]

/-- The fixed hold TTL: `3 * 60 * 1000` milliseconds (index.js line 500). -/
def holdTTL : Nat := 3 * 60 * 1000

/-- The conflict list of a hold attempt: the `seat_number` column of every
`booking_seats` row of this trip whose seat is among the requested ones
(index.js lines 482-490), evaluated on the post-reclaim store. -/
def takenSeats (tripId : Nat) (seats : List Nat) (s1 : Store) : List Nat :=
  (s1.bookingSeats.filter (seatTaken tripId seats)).map (fun a => a.seatNumber)

/-- The `bookings` row inserted on hold success (index.js lines 503-518):
status `'held'`, expiry `now + 3 min`, price `seats.length * 2.5`, the
freshly generated token. -/
def newBooking (now : Nat) (token : String) (userId tripId : Nat)
    (pickup dropoff : String) (seats : List Nat) (bid : Nat) : Booking :=
  { id := bid
    userId := userId
    tripId := tripId
    pickup := pickup
    dropoff := dropoff
    totalPrice := (seats.length : ℚ) * (5 / 2)
    qrToken := token
    status := BStatus.held
    holdExpiresAt := now + holdTTL }

/-- The committed store after a successful hold (index.js lines 500-532):
one new `bookings` row and one `booking_seats` row per element of the
requested seat list, with the auto-increment counter advanced. -/
def holdCommit (now : Nat) (token : String) (userId tripId : Nat)
    (pickup dropoff : String) (seats : List Nat) (s1 : Store) : Store :=
  { s1 with
    bookings := s1.bookings ++
      [newBooking now token userId tripId pickup dropoff seats s1.nextBookingId]
    bookingSeats := s1.bookingSeats ++ seats.map (fun n =>
      { bookingId := s1.nextBookingId, tripId := tripId, seatNumber := n })
    nextBookingId := s1.nextBookingId + 1 }

/-- `POST /api/bookings/hold` (index.js lines 459-549).

`seats` is `none` when the request body's `seats` field is absent or not
an array (`Array.isArray` fails, line 467).  `tripId = 0`, `pickup = \x22\x22`
and `dropoff = \x22\x22` model the falsy values rejected at line 463.
`token` is the value of `crypto.randomUUID()` (line 501), supplied as a
parameter.  On a 409 the transaction rolls back (line 493), so the
original store is returned; on success the reclaim delete, the booking
insert and the seat inserts all commit. -/
def createHold (now : Nat) (token : String) (userId tripId : Nat)
    (pickup dropoff : String) (seats : Option (List Nat)) (s : Store) :
    HoldResp × Store :=
  if tripId = 0 ∨ pickup = ("") ∨ dropoff = ("") then
    (HoldResp.missingTripData, s)
  else
    match seats with
    | none => (HoldResp.seatsRequired, s)
    | some seats =>
      if seats = [] then (HoldResp.seatsRequired, s)
      else
        let s1 := reclaim now s
        let taken := takenSeats tripId seats s1
        if taken ≠ [] then (HoldResp.conflict taken, s)
        else
          (HoldResp.ok s1.nextBookingId (now + holdTTL),
           holdCommit now token userId tripId pickup dropoff seats s1)

/-- Response of `POST /api/bookings/confirm` (index.js lines 554-594). -/
inductive ConfirmResp
  /-- 400, `'bookingId required'` (line 559). -/
  | bookingIdRequired
  /-- 409, `'Hold expired or booking not found'` (lines 574-578). -/
  | conflict
  /-- 200, `{success: true}` (line 587). -/
  | ok
deriving DecidableEq, Repr

/-- The predicate of the confirm query (index.js lines 565-571):
`id = ? AND user_id = ? AND status = 'held' AND
hold_expires_at > UTC_TIMESTAMP()`. -/
def confirmMatch (now userId bookingId : Nat) (b : Booking) : Bool :=
  decide (b.id = bookingId ∧ b.userId = userId ∧
    b.status = BStatus.held ∧ now < b.holdExpiresAt)

/-- `POST /api/bookings/confirm` (index.js lines 554-594).  `bookingId = 0`
models the falsy values rejected at line 558.  When the select finds a
row, the update `SET status = 'confirmed' WHERE id = ?` (lines 580-585)
runs; otherwise nothing is written. -/
def confirm (now userId bookingId : Nat) (s : Store) : ConfirmResp × Store :=
  if bookingId = 0 then (ConfirmResp.bookingIdRequired, s)
  else if s.bookings.any (confirmMatch now userId bookingId) then
    (ConfirmResp.ok,
     { s with
       bookings := s.bookings.map (fun b =>
         if b.id = bookingId then { b with status := BStatus.confirmed } else b) })
  else (ConfirmResp.conflict, s)

/-- Response of `POST /driver/scan` (index.js lines 637-680). -/
inductive ScanResp
  /-- 400, `'Missing qrToken'` (line 641). -/
  | missingToken
  /-- 404, `{valid: false, 'Invalid ticket'}` (line 655): the join of
  `bookings` and `trips` has no row for this token. -/
  | invalid
  /-- 200, `{valid: false, 'Ticket already used or cancelled'}`
  (line 661): the booking exists but its status is not `'confirmed'`. -/
  | rejected
  /-- 200, `{valid: true, bookingId}` (lines 675-679). -/
  | valid (bookingId : Nat)
deriving DecidableEq, Repr

/-- The row predicate of the scan query (index.js lines 644-651):
`b.qr_token = ?` joined with `trips t ON t.id = b.trip_id`. -/
def scanRowMatch (trips : List Nat) (tok : String) (b : Booking) : Bool :=
  decide (b.qrToken = tok ∧ b.tripId ∈ trips)

/-- `rows[0]` of the scan query (index.js line 658): the first `bookings`
row carrying the token whose trip exists. -/
def scanLookup (s : Store) (tok : String) : Option Booking :=
  s.bookings.find? (scanRowMatch s.trips tok)

/-- `POST /driver/scan` (index.js lines 637-680).  `tok = \x22\x22` models the
falsy token rejected at line 640.  On a confirmed booking the update
`SET status = 'used' WHERE id = ?` runs and one `scan_logs` row is
inserted; on any other outcome nothing is written. -/
def scan (now : Nat) (tok : String) (s : Store) : ScanResp × Store :=
  if tok = ("") then (ScanResp.missingToken, s)
  else
    match scanLookup s tok with
    | none => (ScanResp.invalid, s)
    | some b =>
      if b.status ≠ BStatus.confirmed then (ScanResp.rejected, s)
      else
        (ScanResp.valid b.id,
         { s with
           bookings := s.bookings.map (fun x =>
             if x.id = b.id then { x with status := BStatus.used } else x)
           scanLogs := s.scanLogs ++ [{ bookingId := b.id, scannedAt := now }] })

/-- One row of the seat-status response (index.js lines 626-631):
`{seat_number, gender}`. -/
def seatRow (s : Store) (a : SeatAlloc) : Option (Nat × String) :=
  match s.bookings.find? (fun b => decide (b.id = a.bookingId)) with
  | none => none
  | some b =>
    match s.users.find? (fun u => decide (u.id = b.userId)) with
    | none => none
    | some u => some (a.seatNumber, u.gender.getD ("none"))

/-- `GET /api/trips/:tripId/seats` (index.js lines 610-632): inner join of
`booking_seats`, `bookings` and `users` filtered by trip, projecting
`seat_number` and `COALESCE(u.gender, 'none')`.  This handler runs a
single SELECT and writes nothing, so it is a pure function of the store. -/
def seatStatus (tripId : Nat) (s : Store) : List (Nat × String) :=
  (s.bookingSeats.filter (fun a => decide (a.tripId = tripId))).filterMap (seatRow s)

/-- The operations that mutate the store, each one HTTP request or sweep
tick as a single atomic step. -/
inductive Op
  | holdOp (now : Nat) (token : String) (userId tripId : Nat)
      (pickup dropoff : String) (seats : Option (List Nat))
  | confirmOp (now userId bookingId : Nat)
  | sweepOp (now : Nat)
  | scanOp (now : Nat) (token : String)
deriving DecidableEq, Repr

/-- Effect of one operation on the store. -/
def applyOp (s : Store) : Op → Store
  | Op.holdOp n t u trip p d seats => (createHold n t u trip p d seats s).2
  | Op.confirmOp n u bid => (confirm n u bid s).2
  | Op.sweepOp n => sweep n s
  | Op.scanOp n tok => (scan n tok s).2

/-- Effect of a sequence of operations. -/
def applyOps (s : Store) (ops : List Op) : Store :=
  ops.foldl applyOp s

/-- The ticket token a hold operation would attach to its new booking. -/
def holdTokenOf : Op → Option String
  | Op.holdOp _ t _ _ _ _ _ => some t
  | _ => none

/-- Well-formedness: booking ids are pairwise distinct. -/
def distinctIds (s : Store) : Prop :=
  s.bookings.Pairwise (fun a b => a.id ≠ b.id)

/-- Well-formedness: every booking id is below the auto-increment counter. -/
def idsBounded (s : Store) : Prop :=
  ∀ b ∈ s.bookings, b.id < s.nextBookingId

/-- Well-formedness: every seat-allocation row references an existing
booking row. -/
def allocsOwned (s : Store) : Prop :=
  ∀ a ∈ s.bookingSeats, ∃ b ∈ s.bookings, b.id = a.bookingId

/-- A booking whose seat allocations block other holds at time `now`:
confirmed, used, or held with an unexpired TTL. -/
def liveAt (now : Nat) (b : Booking) : Prop :=
  b.status = BStatus.confirmed ∨ b.status = BStatus.used ∨
    (b.status = BStatus.held ∧ now ≤ b.holdExpiresAt)

/-! ### General list helper lemmas -/

theorem find?_filter_keep {α : Type} {p q : α → Bool} {l : List α} {b : α}
    (h : l.find? p = some b) (hq : q b = true) :
    (l.filter q).find? p = some b := by
  induction l with
  | nil => simp at h
  | cons a t ih =>
    by_cases hp : p a = true
    · rw [List.find?_cons_of_pos _ hp] at h
      obtain rfl : a = b := by injection h
      rw [List.filter_cons, if_pos hq, List.find?_cons_of_pos _ hp]
    · rw [List.find?_cons_of_neg _ hp] at h
      rw [List.filter_cons]
      split
      · rw [List.find?_cons_of_neg _ hp]; exact ih h
      · exact ih h

/-! ### Characterization of the hold handler's branches -/

/-- A hold request with well-formed trip data and a non-empty seat list
ends in a conflict listing the taken seats (store unchanged) or in a
success committing exactly the new booking and its seat rows. -/
theorem createHold_branches (now : Nat) (token : String) (userId tripId : Nat)
    (pickup dropoff : String) (xs : List Nat) (s : Store)
    (hv : ¬(tripId = 0 ∨ pickup = ("") ∨ dropoff = ("")))
    (hxs : xs ≠ []) :
    (takenSeats tripId xs (reclaim now s) ≠ [] ∧
      createHold now token userId tripId pickup dropoff (some xs) s =
        (HoldResp.conflict (takenSeats tripId xs (reclaim now s)), s)) ∨
    (takenSeats tripId xs (reclaim now s) = [] ∧
      createHold now token userId tripId pickup dropoff (some xs) s =
        (HoldResp.ok (reclaim now s).nextBookingId (now + holdTTL),
         holdCommit now token userId tripId pickup dropoff xs (reclaim now s))) := by
  unfold createHold
  rw [if_neg hv]
  simp only [if_neg hxs]
  by_cases ht : takenSeats tripId xs (reclaim now s) = []
  · right
    refine ⟨ht, ?_⟩
    rw [if_neg (by simpa using ht)]
  · left
    refine ⟨ht, ?_⟩
    rw [if_pos ht]

/-- A hold request failing validation is rejected unchanged, and the
validation predicate is exactly: falsy trip data, or a seats field that is
not a non-empty array. -/
theorem createHold_validation (now : Nat) (token : String) (userId tripId : Nat)
    (pickup dropoff : String) (seats : Option (List Nat)) (s : Store) :
    (((createHold now token userId tripId pickup dropoff seats s).1 = HoldResp.missingTripData ∨
      (createHold now token userId tripId pickup dropoff seats s).1 = HoldResp.seatsRequired) ↔
      (tripId = 0 ∨ pickup = ("") ∨ dropoff = ("") ∨ seats = none ∨ seats = some [])) ∧
    (((createHold now token userId tripId pickup dropoff seats s).1 = HoldResp.missingTripData ∨
      (createHold now token userId tripId pickup dropoff seats s).1 = HoldResp.seatsRequired) →
      (createHold now token userId tripId pickup dropoff seats s).2 = s) := by
  by_cases hv : tripId = 0 ∨ pickup = ("") ∨ dropoff = ("")
  · constructor
    · exact iff_of_true (Or.inl (by unfold createHold; rw [if_pos hv]))
        (by rcases hv with h | h | h <;> simp [h])
    · intro _
      unfold createHold
      rw [if_pos hv]
  · match seats with
    | none =>
      constructor
      · exact iff_of_true (Or.inr (by unfold createHold; rw [if_neg hv]))
          (by simp)
      · intro _
        unfold createHold
        rw [if_neg hv]
    | some xs =>
      by_cases hxs : xs = []
      · subst hxs
        constructor
        · exact iff_of_true (Or.inr (by unfold createHold; rw [if_neg hv]; simp))
            (by simp)
        · intro _
          unfold createHold
          rw [if_neg hv]
          simp
      · rcases createHold_branches now token userId tripId pickup dropoff xs s hv hxs with
          ⟨_, heq⟩ | ⟨_, heq⟩ <;>
        · rw [heq]
          constructor
          · refine iff_of_false (by rintro (h | h) <;> exact HoldResp.noConfusion h) ?_
            rintro (h | h | h | h | h)
            · exact hv (Or.inl h)
            · exact hv (Or.inr (Or.inl h))
            · exact hv (Or.inr (Or.inr h))
            · exact Option.noConfusion h
            · exact hxs (by injection h)
          · rintro (h | h) <;> exact HoldResp.noConfusion h

/-! ### Concrete stores used by witnesses and counterexamples -/

/-- An empty store with one trip. -/
def store0 : Store :=
  { bookings := [], bookingSeats := [], users := [], trips := [1],
    scanLogs := [], nextBookingId := 1 }

/-- A live held booking for seat 3 of trip 1, expiring at 181000. -/
def bkHeld : Booking :=
  { id := 1, userId := 7, tripId := 1, pickup := ("A"), dropoff := ("B"),
    totalPrice := (5 : ℚ) / 2, qrToken := ("tok-1"), status := BStatus.held,
    holdExpiresAt := 181000 }

/-- A store holding only `bkHeld` and its seat allocation. -/
def storeHeld : Store :=
  { bookings := [bkHeld],
    bookingSeats := [{ bookingId := 1, tripId := 1, seatNumber := 3 }],
    users := [{ id := 7, gender := none }], trips := [1], scanLogs := [],
    nextBookingId := 2 }

/-! ### C3: confirm succeeds exactly on an owned, live, held booking -/

/-- C3: `confirm(bookingId, ownerId)` succeeds if and only if the booking
exists, is owned by `ownerId`, has status held and its `holdExpiresAt` is
strictly in the future at the time of the check; in every other case it
returns Conflict and leaves the store unchanged, and on success the only
change is that the matched booking's status becomes confirmed. -/
theorem confirm_ok_iff_owned_live_held (s : Store) (now userId bookingId : Nat)
    (hbid : bookingId ≠ 0) :
    ((confirm now userId bookingId s).1 = ConfirmResp.ok ↔
      ∃ b ∈ s.bookings, b.id = bookingId ∧ b.userId = userId ∧
        b.status = BStatus.held ∧ now < b.holdExpiresAt) ∧
    ((confirm now userId bookingId s).1 ≠ ConfirmResp.ok →
      (confirm now userId bookingId s).1 = ConfirmResp.conflict ∧
      (confirm now userId bookingId s).2 = s) ∧
    ((confirm now userId bookingId s).1 = ConfirmResp.ok →
      (confirm now userId bookingId s).2 =
        { s with bookings := s.bookings.map (fun b =>
            if b.id = bookingId then { b with status := BStatus.confirmed } else b) }) := by
  unfold confirm
  rw [if_neg hbid]
  by_cases h : s.bookings.any (confirmMatch now userId bookingId) = true
  · rw [if_pos h]
    refine ⟨?_, ?_, ?_⟩
    · simp only [true_iff]
      rw [List.any_eq_true] at h
      obtain ⟨b, hb, hm⟩ := h
      unfold confirmMatch at hm
      rw [decide_eq_true_iff] at hm
      exact ⟨b, hb, hm⟩
    · intro hne; exact absurd rfl hne
    · intro _; rfl
  · rw [if_neg h]
    refine ⟨⟨fun hc => ConfirmResp.noConfusion hc, fun hex => ?_⟩,
      fun _ => ⟨rfl, rfl⟩, fun hc => ConfirmResp.noConfusion hc⟩
    obtain ⟨b, hb, hm⟩ := hex
    exact absurd
      (List.any_eq_true.mpr ⟨b, hb, by unfold confirmMatch; exact decide_eq_true_iff.mpr hm⟩) h

/-- Witness for C3 at a concrete input: a live held booking confirms. -/
theorem confirm_ok_iff_owned_live_held_witness :
    (confirm 1000 7 1 storeHeld).1 = ConfirmResp.ok :=
  (confirm_ok_iff_owned_live_held storeHeld 1000 7 1 (by decide)).1.mpr
    ⟨bkHeld, List.mem_singleton.mpr rfl, rfl, rfl, rfl, by decide⟩

/-! ### C9: hold request validation -/

/-- C9 counterexample: a hold request whose seat list carries a duplicate
is not rejected with a 400.  The handler checks only that `seats` is a
non-empty array (index.js line 467) and never checks distinctness, so the
duplicate request reaches the allocate sequence and succeeds. -/
theorem hold_duplicate_seats_pass_validation :
    ¬ ([5, 5] : List Nat).Nodup ∧
    (createHold 1000 ("tk") 7 1 ("A") ("B") (some [5, 5]) store0).1 =
      HoldResp.ok 1 181000 := by
  decide

/-- C9 (amended): the hold handler rejects with a 400, before opening any
transaction and with the store unchanged, exactly the requests with falsy
trip data (`tripId`, `pickup` or `dropoff`) or whose seats field is not a
non-empty array; it does not check seat distinctness.  Every request
passing these checks reaches the reclaim/conflict/allocate sequence and
ends in a 409 conflict or a success. -/
theorem hold_validation_spec (now : Nat) (token : String) (userId tripId : Nat)
    (pickup dropoff : String) (seats : Option (List Nat)) (s : Store) :
    (((createHold now token userId tripId pickup dropoff seats s).1 = HoldResp.missingTripData ∨
      (createHold now token userId tripId pickup dropoff seats s).1 = HoldResp.seatsRequired) ↔
      (tripId = 0 ∨ pickup = ("") ∨ dropoff = ("") ∨ seats = none ∨ seats = some [])) ∧
    (((createHold now token userId tripId pickup dropoff seats s).1 = HoldResp.missingTripData ∨
      (createHold now token userId tripId pickup dropoff seats s).1 = HoldResp.seatsRequired) →
      (createHold now token userId tripId pickup dropoff seats s).2 = s) ∧
    (¬(tripId = 0 ∨ pickup = ("") ∨ dropoff = ("") ∨ seats = none ∨ seats = some []) →
      (∃ taken, (createHold now token userId tripId pickup dropoff seats s).1 =
        HoldResp.conflict taken) ∨
      (∃ bid exp, (createHold now token userId tripId pickup dropoff seats s).1 =
        HoldResp.ok bid exp)) := by
  refine ⟨(createHold_validation now token userId tripId pickup dropoff seats s).1,
    (createHold_validation now token userId tripId pickup dropoff seats s).2, ?_⟩
  intro hn
  have hv : ¬(tripId = 0 ∨ pickup = ("") ∨ dropoff = ("")) := by tauto
  match seats with
  | none => exact absurd (Or.inr (Or.inr (Or.inr (Or.inl rfl)))) hn
  | some xs =>
    have hxs : xs ≠ [] := fun h => hn (Or.inr (Or.inr (Or.inr (Or.inr (by rw [h])))))
    rcases createHold_branches now token userId tripId pickup dropoff xs s hv hxs with
      ⟨_, heq⟩ | ⟨_, heq⟩
    · exact Or.inl ⟨_, by rw [heq]⟩
    · exact Or.inr ⟨_, _, by rw [heq]⟩

/-! ### C8: fields of the hold success response -/

/-- C8 counterexample: the hold success response (the object literal at
index.js lines 534-537) carries only `bookingId` and `holdExpiresAt`; no
ticket-token field is present, even though the concrete call shown here
succeeds and a token is stored on the created booking. -/
theorem hold_response_lacks_token :
    ("ticketToken") ∉ createHoldSuccessKeys ∧
    ("qrToken") ∉ createHoldSuccessKeys ∧
    ("bookingId") ∈ createHoldSuccessKeys ∧
    ("holdExpiresAt") ∈ createHoldSuccessKeys ∧
    (createHold 1000 ("tk") 7 1 ("A") ("B") (some [3]) store0).1 =
      HoldResp.ok 1 181000 ∧
    (∃ b ∈ ((createHold 1000 ("tk") 7 1 ("A") ("B") (some [3]) store0).2).bookings,
      b.qrToken = ("tk")) := by
  exact ⟨by decide, by decide, by decide, by decide, by decide,
    newBooking 1000 ("tk") 7 1 ("A") ("B") [3] 1, List.mem_singleton.mpr rfl, rfl⟩

/-- C8 (amended): every successful hold call returns exactly the
`bookingId` and `holdExpiresAt` of the newly created booking; the ticket
token is stored on the booking row but is not part of the response. -/
theorem hold_success_response_fields (now : Nat) (token : String)
    (userId tripId : Nat) (pickup dropoff : String) (seats : Option (List Nat))
    (s : Store) (bid exp : Nat)
    (hok : (createHold now token userId tripId pickup dropoff seats s).1 =
      HoldResp.ok bid exp) :
    createHoldSuccessKeys = [("bookingId"), ("holdExpiresAt")] ∧
    ∃ b ∈ ((createHold now token userId tripId pickup dropoff seats s).2).bookings,
      b.id = bid ∧ b.holdExpiresAt = exp ∧ b.qrToken = token := by
  refine ⟨rfl, ?_⟩
  by_cases hv : tripId = 0 ∨ pickup = ("") ∨ dropoff = ("")
  · unfold createHold at hok
    rw [if_pos hv] at hok
    exact absurd hok (fun h => HoldResp.noConfusion h)
  · match seats with
    | none =>
      unfold createHold at hok
      rw [if_neg hv] at hok
      exact absurd hok (fun h => HoldResp.noConfusion h)
    | some xs =>
      by_cases hxs : xs = []
      · subst hxs
        unfold createHold at hok
        rw [if_neg hv] at hok
        simp only [if_pos] at hok
        exact absurd hok (fun h => HoldResp.noConfusion h)
      · rcases createHold_branches now token userId tripId pickup dropoff xs s hv hxs with
          ⟨_, heq⟩ | ⟨_, heq⟩
        · rw [heq] at hok
          exact absurd hok (fun h => HoldResp.noConfusion h)
        · rw [heq] at hok
          obtain ⟨hbid, hexp⟩ : (reclaim now s).nextBookingId = bid ∧ now + holdTTL = exp := by
            refine ⟨?_, ?_⟩ <;> injection hok
          refine ⟨newBooking now token userId tripId pickup dropoff xs
              (reclaim now s).nextBookingId, ?_, hbid, hexp, rfl⟩
          rw [heq]
          unfold holdCommit
          exact List.mem_append_right _ (List.mem_singleton.mpr rfl)

/-- Witness for C8 (amended) at a concrete successful call. -/
theorem hold_success_response_fields_witness :
    createHoldSuccessKeys = [("bookingId"), ("holdExpiresAt")] ∧
    ∃ b ∈ ((createHold 1000 ("tk") 7 1 ("A") ("B") (some [3]) store0).2).bookings,
      b.id = 1 ∧ b.holdExpiresAt = 181000 ∧ b.qrToken = ("tk") :=
  hold_success_response_fields 1000 ("tk") 7 1 ("A") ("B") (some [3]) store0 1 181000
    (by decide)

/-! ### Reclaim-pass lemmas -/

/-- A seat-allocation row survives the reclaim pass exactly when no
expired held booking owns it. -/
theorem mem_reclaim_bookingSeats {now : Nat} {s : Store} {a : SeatAlloc} :
    a ∈ (reclaim now s).bookingSeats ↔
      a ∈ s.bookingSeats ∧
      ∀ b ∈ s.bookings, b.id = a.bookingId → expiredHeld now b = false := by
  unfold reclaim
  simp only [List.mem_filter, Bool.not_eq_eq_eq_not, Bool.not_true, List.any_eq_false,
    Bool.and_eq_true, decide_eq_true_eq]
  constructor
  · rintro ⟨ha, h⟩
    refine ⟨ha, fun b hb hid => ?_⟩
    have := h b hb
    rcases Bool.eq_false_or_eq_true (expiredHeld now b) with ht | hf
    · exact absurd ⟨ht, hid⟩ this
    · exact hf
  · rintro ⟨ha, h⟩
    refine ⟨ha, fun b hb => ?_⟩
    rintro ⟨ht, hid⟩
    rw [h b hb hid] at ht
    exact Bool.noConfusion ht

/-- `find?` by a distinct key returns the member with that key. -/
theorem find?_key_eq {α : Type} {key : α → Nat} {l : List α} {k : Nat}
    (hd : l.Pairwise fun a b => key a ≠ key b) {b : α} (hb : b ∈ l)
    (hk : key b = k) :
    l.find? (fun x => decide (key x = k)) = some b := by
  induction l with
  | nil => cases hb
  | cons a t ih =>
    rcases List.mem_cons.mp hb with rfl | hbt
    · exact List.find?_cons_of_pos _ (decide_eq_true_iff.mpr hk)
    · have hne : key a ≠ k := by
        rw [← hk]
        exact (List.pairwise_cons.mp hd).1 b hbt
      rw [List.find?_cons_of_neg _ (by simpa using hne)]
      exact ih (List.pairwise_cons.mp hd).2 hbt

/-! ### C10: the gender projection never yields a null -/

/-- C10: every row of the seat-status response pairs its seat with the
owning user's gender run through `COALESCE(gender, 'none')`: the stored
string when one exists, the literal string `'none'` when the stored gender
is NULL — so the gender field is always a string. -/
theorem seatStatus_gender_coalesce (tripId : Nat) (s : Store) :
    ∀ p ∈ seatStatus tripId s,
      ∃ a ∈ s.bookingSeats, a.tripId = tripId ∧ p.1 = a.seatNumber ∧
      ∃ b ∈ s.bookings, b.id = a.bookingId ∧
      ∃ u ∈ s.users, u.id = b.userId ∧
        p.2 = u.gender.getD ("none") ∧
        (u.gender = none → p.2 = ("none")) ∧
        ∀ g, u.gender = some g → p.2 = g := by
  intro p hp
  unfold seatStatus at hp
  obtain ⟨a, haf, hrow⟩ := List.mem_filterMap.mp hp
  obtain ⟨ha, hatrip⟩ := List.mem_filter.mp haf
  unfold seatRow at hrow
  rcases hfb : s.bookings.find? (fun b2 => decide (b2.id = a.bookingId)) with _ | b
  · rw [hfb] at hrow; exact Option.noConfusion hrow
  simp only [hfb] at hrow
  rcases hfu : s.users.find? (fun u2 => decide (u2.id = b.userId)) with _ | u
  · rw [hfu] at hrow; exact Option.noConfusion hrow
  simp only [hfu] at hrow
  obtain ⟨hp1, hp2⟩ : a.seatNumber = p.1 ∧ u.gender.getD ("none") = p.2 := by
    injection hrow with h
    rw [← h]
    exact ⟨rfl, rfl⟩
  have hbid : b.id = a.bookingId := by
    have hps := List.find?_some hfb
    simpa using hps
  have huid : u.id = b.userId := by
    have hps := List.find?_some hfu
    simpa using hps
  refine ⟨a, ha, decide_eq_true_iff.mp hatrip, hp1.symm,
    b, List.mem_of_find?_eq_some hfb, hbid,
    u, List.mem_of_find?_eq_some hfu, huid,
    hp2.symm, ?_, ?_⟩
  · intro hg; rw [← hp2, hg]; rfl
  · intro g hg; rw [← hp2, hg]; rfl

/-- Witness for C10: with a NULL stored gender the response row reads
`'none'`. -/
theorem seatStatus_gender_coalesce_witness :
    ∃ a ∈ storeHeld.bookingSeats, a.tripId = 1 ∧
      (Prod.fst (3, ("none"))) = a.seatNumber ∧
    ∃ b ∈ storeHeld.bookings, b.id = a.bookingId ∧
    ∃ u ∈ storeHeld.users, u.id = b.userId ∧
      (Prod.snd (3, ("none"))) = u.gender.getD ("none") ∧
      (u.gender = none → (Prod.snd (3, ("none"))) = ("none")) ∧
      ∀ g, u.gender = some g → (Prod.snd (3, ("none"))) = g :=
  seatStatus_gender_coalesce 1 storeHeld (3, ("none")) (List.mem_singleton.mpr rfl)

/-! ### C7: which allocations the seat-status query reports -/

/-- C7 counterexample: the seat-status query (index.js lines 610-632) has
no liveness filter.  At time 200000 the only booking of `storeHeld` is a
held booking whose TTL (181000) has passed, so the claim says its seat is
not reported; the query nevertheless reports seat 3, because the booking
row is still present (no sweep or hold has reclaimed it yet). -/
theorem seatStatus_includes_expired_hold :
    bkHeld.status = BStatus.held ∧ bkHeld.holdExpiresAt < 200000 ∧
    (∀ b ∈ storeHeld.bookings,
      b.status = BStatus.held ∧ b.holdExpiresAt < 200000) ∧
    seatStatus 1 storeHeld = [(3, ("none"))] := by
  decide

/-- C7 (amended): the seat-status query is a pure read returning, for a
trip, one row per seat allocation whose booking row is still present in
the store — whatever its status, including a held booking whose TTL has
passed but which no reclaim has deleted yet — paired with the owning
user's `COALESCE(gender, 'none')`; rows whose booking or user is absent
are dropped by the inner joins. -/
theorem seatStatus_reports_stored_allocations (tripId : Nat) (s : Store)
    (hb : s.bookings.Pairwise fun x y => x.id ≠ y.id)
    (hu : s.users.Pairwise fun x y => x.id ≠ y.id) :
    ∀ n g, (n, g) ∈ seatStatus tripId s ↔
      ∃ a ∈ s.bookingSeats, a.tripId = tripId ∧ a.seatNumber = n ∧
      ∃ b ∈ s.bookings, b.id = a.bookingId ∧
      ∃ u ∈ s.users, u.id = b.userId ∧ g = u.gender.getD ("none") := by
  intro n g
  constructor
  · intro hp
    obtain ⟨a, ha, hatrip, hp1, b, hbmem, hbid, u, humem, huid, hp2, -, -⟩ :=
      seatStatus_gender_coalesce tripId s (n, g) hp
    exact ⟨a, ha, hatrip, hp1.symm, b, hbmem, hbid, u, humem, huid, hp2⟩
  · rintro ⟨a, ha, hatrip, hn, b, hbmem, hbid, u, humem, huid, hg⟩
    unfold seatStatus
    refine List.mem_filterMap.mpr ⟨a, List.mem_filter.mpr ⟨ha, decide_eq_true_iff.mpr hatrip⟩, ?_⟩
    unfold seatRow
    rw [find?_key_eq hb hbmem hbid]
    dsimp only
    rw [find?_key_eq hu humem huid]
    dsimp only
    rw [hn, hg]

/-- Witness for C7 (amended): the expired-held allocation of `storeHeld`
is reported. -/
theorem seatStatus_reports_stored_allocations_witness :
    (3, ("none")) ∈ seatStatus 1 storeHeld :=
  (seatStatus_reports_stored_allocations 1 storeHeld
      (List.pairwise_singleton _ _) (List.pairwise_singleton _ _) 3 ("none")).mpr
    ⟨{ bookingId := 1, tripId := 1, seatNumber := 3 }, List.mem_singleton.mpr rfl,
      rfl, rfl, bkHeld, List.mem_singleton.mpr rfl, rfl,
      { id := 7, gender := none }, List.mem_singleton.mpr rfl, rfl, rfl⟩

/-- Membership in the conflict list of a hold attempt. -/
theorem mem_takenSeats {tripId : Nat} {xs : List Nat} {s1 : Store} {n : Nat} :
    n ∈ takenSeats tripId xs s1 ↔
      ∃ a ∈ s1.bookingSeats, a.tripId = tripId ∧ a.seatNumber ∈ xs ∧
        a.seatNumber = n := by
  unfold takenSeats seatTaken
  simp only [List.mem_map, List.mem_filter, decide_eq_true_eq]
  constructor
  · rintro ⟨a, ⟨ha, ht, hs⟩, hn⟩
    exact ⟨a, ha, ht, hs, hn⟩
  · rintro ⟨a, ha, ht, hs, hn⟩
    exact ⟨a, ⟨ha, ht, hs⟩, hn⟩

/-! ### C1: expired holds never block a new hold -/

/-- C1: when every allocation of seat `seat` on trip `tripId` belongs to a
held booking whose TTL has passed, a hold request for that seat succeeds:
the inline reclaim pass (the first statement of the hold transaction)
deletes the expired holds before the conflict check, so they cannot block
the new hold. -/
theorem expired_hold_never_blocks (now : Nat) (token : String)
    (userId tripId seat : Nat) (pickup dropoff : String) (s : Store)
    (hv : ¬(tripId = 0 ∨ pickup = ("") ∨ dropoff = ("")))
    (hexp : ∀ a ∈ s.bookingSeats, a.tripId = tripId → a.seatNumber = seat →
      ∃ b ∈ s.bookings, b.id = a.bookingId ∧ b.status = BStatus.held ∧
        b.holdExpiresAt < now) :
    ∃ bid exp, (createHold now token userId tripId pickup dropoff (some [seat]) s).1 =
      HoldResp.ok bid exp := by
  rcases createHold_branches now token userId tripId pickup dropoff [seat] s hv
    (by simp) with ⟨hne, heq⟩ | ⟨_, heq⟩
  · exfalso
    obtain ⟨n, hn⟩ := List.exists_mem_of_ne_nil _ hne
    obtain ⟨a, ha1, ht, hs, rfl⟩ := mem_takenSeats.mp hn
    obtain ⟨ha, hsurv⟩ := mem_reclaim_bookingSeats.mp ha1
    have hseat : a.seatNumber = seat := by simpa using hs
    obtain ⟨b, hbmem, hbid, hheld, hlt⟩ := hexp a ha ht hseat
    have hfalse := hsurv b hbmem hbid
    unfold expiredHeld at hfalse
    rw [decide_eq_false_iff_not] at hfalse
    exact hfalse ⟨hheld, hlt⟩
  · exact ⟨_, _, by rw [heq]⟩

/-- Witness for C1: in `storeHeld` at time 200000 the only allocation of
seat 3 belongs to a hold that expired at 181000; a new hold succeeds. -/
theorem expired_hold_never_blocks_witness :
    ∃ bid exp, (createHold 200000 ("tk2") 8 1 ("A") ("B") (some [3]) storeHeld).1 =
      HoldResp.ok bid exp :=
  expired_hold_never_blocks 200000 ("tk2") 8 1 3 ("A") ("B") storeHeld
    (by decide) (by decide)

/-! ### C4: a conflict reports exactly the live-allocated requested seats -/

/-- A store whose single booking is confirmed and holds seat 3 of trip 1. -/
def bkConf : Booking :=
  { id := 1, userId := 7, tripId := 1, pickup := ("A"), dropoff := ("B"),
    totalPrice := (5 : ℚ) / 2, qrToken := ("tok-c"), status := BStatus.confirmed,
    holdExpiresAt := 0 }

def storeConf : Store :=
  { bookings := [bkConf],
    bookingSeats := [{ bookingId := 1, tripId := 1, seatNumber := 3 }],
    users := [{ id := 7, gender := some ("female") }], trips := [1],
    scanLogs := [], nextBookingId := 2 }

/-- C4: when a hold request ends in a conflict, the reported seat list
holds exactly the requested seats currently allocated to a live booking
(held with unexpired TTL, confirmed, or used), and the store is unchanged
(the transaction, including its reclaim delete, rolls back). -/
theorem conflict_reports_exactly_live_seats (now : Nat) (token : String)
    (userId tripId : Nat) (pickup dropoff : String) (xs : List Nat) (s : Store)
    (taken : List Nat)
    (hd : distinctIds s) (hown : allocsOwned s)
    (hconf : (createHold now token userId tripId pickup dropoff (some xs) s).1 =
      HoldResp.conflict taken) :
    (∀ n, n ∈ taken ↔ (n ∈ xs ∧ ∃ a ∈ s.bookingSeats, a.tripId = tripId ∧
      a.seatNumber = n ∧ ∃ b ∈ s.bookings, b.id = a.bookingId ∧ liveAt now b)) ∧
    (createHold now token userId tripId pickup dropoff (some xs) s).2 = s := by
  by_cases hv : tripId = 0 ∨ pickup = ("") ∨ dropoff = ("")
  · unfold createHold at hconf
    rw [if_pos hv] at hconf
    exact absurd hconf (fun h => HoldResp.noConfusion h)
  by_cases hxs : xs = []
  · subst hxs
    unfold createHold at hconf
    rw [if_neg hv] at hconf
    simp only [if_pos] at hconf
    exact absurd hconf (fun h => HoldResp.noConfusion h)
  rcases createHold_branches now token userId tripId pickup dropoff xs s hv hxs with
    ⟨hne, heq⟩ | ⟨hemp, heq⟩
  swap
  · rw [heq] at hconf
    exact absurd hconf (fun h => HoldResp.noConfusion h)
  rw [heq] at hconf ⊢
  have hconf2 : HoldResp.conflict (takenSeats tripId xs (reclaim now s)) =
      HoldResp.conflict taken := hconf
  have hlist : takenSeats tripId xs (reclaim now s) = taken := by
    injection hconf2
  refine ⟨?_, rfl⟩
  intro n
  rw [← hlist, mem_takenSeats]
  constructor
  · rintro ⟨a, ha1, ht, hs, hn⟩
    obtain ⟨ha, hsurv⟩ := mem_reclaim_bookingSeats.mp ha1
    refine ⟨hn ▸ hs, a, ha, ht, hn, ?_⟩
    obtain ⟨b, hbmem, hbid⟩ := hown a ha
    refine ⟨b, hbmem, hbid, ?_⟩
    have hnx := hsurv b hbmem hbid
    unfold expiredHeld at hnx
    rw [decide_eq_false_iff_not] at hnx
    unfold liveAt
    cases hst : b.status with
    | held =>
      exact Or.inr (Or.inr ⟨rfl, Nat.le_of_not_lt (fun hlt => hnx ⟨hst, hlt⟩)⟩)
    | confirmed => exact Or.inl rfl
    | used => exact Or.inr (Or.inl rfl)
  · rintro ⟨hnx, a, ha, ht, hn, b, hbmem, hbid, hlive⟩
    refine ⟨a, ?_, ht, by rw [hn]; exact hnx, hn⟩
    rw [mem_reclaim_bookingSeats]
    refine ⟨ha, fun b2 hb2 hbid2 => ?_⟩
    have hkey : b2.id = b.id := by rw [hbid2, ← hbid]
    have hsymm : Symmetric (fun x y : Booking => x.id ≠ y.id) :=
      fun x y h he => h he.symm
    have hbeq : b2 = b := by
      by_contra hne2
      exact (List.Pairwise.forall hsymm hd hb2 hbmem hne2) hkey
    subst hbeq
    unfold expiredHeld
    rw [decide_eq_false_iff_not]
    rintro ⟨hheld, hlt⟩
    unfold liveAt at hlive
    rcases hlive with hc | hu | ⟨hh, hle⟩
    · rw [hheld] at hc; exact BStatus.noConfusion hc
    · rw [hheld] at hu; exact BStatus.noConfusion hu
    · exact absurd hlt (Nat.not_lt.mpr hle)

/-- Witness for C4: requesting seats 3 and 4 against a store whose
confirmed booking holds seat 3 leaves the store unchanged (and the
conflict names exactly seat 3). -/
theorem conflict_reports_exactly_live_seats_witness :
    (createHold 1000 ("tk") 8 1 ("A") ("B") (some [3, 4]) storeConf).2 = storeConf :=
  (conflict_reports_exactly_live_seats 1000 ("tk") 8 1 ("A") ("B") [3, 4] storeConf [3]
    (List.pairwise_singleton _ _)
    (by
      intro a ha
      have ha2 : a = { bookingId := 1, tripId := 1, seatNumber := 3 } :=
        List.mem_singleton.mp ha
      subst ha2
      exact ⟨bkConf, List.mem_singleton.mpr rfl, rfl⟩)
    (by decide)).2

/-! ### C5: every successful hold creates exactly the held booking and its rows -/

/-- C5: a successful hold with distinct requested seats creates a booking
in status held with `holdExpiresAt = now + 3` minutes (in milliseconds),
total price `seats.length * 2.5`, the freshly generated token, and exactly
one seat-allocation row per requested seat linking the new booking to
(trip, seat) — and no allocation row of the new booking is outside the
requested seats. -/
theorem createHold_success_shape (now : Nat) (token : String)
    (userId tripId : Nat) (pickup dropoff : String) (xs : List Nat)
    (s : Store) (bid exp : Nat)
    (hnodup : xs.Nodup) (hbound : idsBounded s) (hown : allocsOwned s)
    (hok : (createHold now token userId tripId pickup dropoff (some xs) s).1 =
      HoldResp.ok bid exp) :
    exp = now + 3 * 60 * 1000 ∧
    (∃ b ∈ ((createHold now token userId tripId pickup dropoff (some xs) s).2).bookings,
      b.id = bid ∧ b.status = BStatus.held ∧ b.holdExpiresAt = now + 3 * 60 * 1000 ∧
      b.qrToken = token ∧ b.totalPrice = (xs.length : ℚ) * (5 / 2)) ∧
    (∀ n ∈ xs,
      (((createHold now token userId tripId pickup dropoff (some xs) s).2).bookingSeats.countP
        (fun a => decide (a.bookingId = bid ∧ a.tripId = tripId ∧ a.seatNumber = n))) = 1) ∧
    (∀ a ∈ ((createHold now token userId tripId pickup dropoff (some xs) s).2).bookingSeats,
      a.bookingId = bid → a.tripId = tripId ∧ a.seatNumber ∈ xs) := by
  by_cases hv : tripId = 0 ∨ pickup = ("") ∨ dropoff = ("")
  · unfold createHold at hok
    rw [if_pos hv] at hok
    exact absurd hok (fun h => HoldResp.noConfusion h)
  by_cases hxs : xs = []
  · subst hxs
    unfold createHold at hok
    rw [if_neg hv] at hok
    simp only [if_pos] at hok
    exact absurd hok (fun h => HoldResp.noConfusion h)
  rcases createHold_branches now token userId tripId pickup dropoff xs s hv hxs with
    ⟨hne, heq⟩ | ⟨hemp, heq⟩
  · rw [heq] at hok
    exact absurd hok (fun h => HoldResp.noConfusion h)
  rw [heq] at hok ⊢
  have hok2 : HoldResp.ok (reclaim now s).nextBookingId (now + holdTTL) =
      HoldResp.ok bid exp := hok
  obtain ⟨hbid, hexp⟩ : (reclaim now s).nextBookingId = bid ∧ now + holdTTL = exp := by
    refine ⟨?_, ?_⟩ <;> injection hok2
  have hbid2 : s.nextBookingId = bid := hbid
  refine ⟨hexp.symm, ?_, ?_, ?_⟩
  · refine ⟨newBooking now token userId tripId pickup dropoff xs
        (reclaim now s).nextBookingId, ?_, hbid, rfl, rfl, rfl, rfl⟩
    unfold holdCommit
    exact List.mem_append_right _ (List.mem_singleton.mpr rfl)
  · intro n hn
    show ((reclaim now s).bookingSeats ++ xs.map (fun n2 =>
        { bookingId := (reclaim now s).nextBookingId, tripId := tripId,
          seatNumber := n2 : SeatAlloc })).countP _ = 1
    rw [List.countP_append]
    have hzero : ((reclaim now s).bookingSeats.countP
        (fun a => decide (a.bookingId = bid ∧ a.tripId = tripId ∧ a.seatNumber = n))) = 0 := by
      rw [List.countP_eq_zero]
      intro a ha
      obtain ⟨ha0, -⟩ := mem_reclaim_bookingSeats.mp ha
      obtain ⟨b0, hb0, hb0id⟩ := hown a ha0
      have hlt : a.bookingId < bid := by
        rw [← hb0id, ← hbid2]
        exact hbound b0 hb0
      rw [decide_eq_true_iff]
      rintro ⟨heqid, -, -⟩
      rw [heqid] at hlt
      exact Nat.lt_irrefl _ hlt
    rw [hzero, Nat.zero_add, List.countP_map]
    have hcong : (xs.countP ((fun a => decide (a.bookingId = bid ∧ a.tripId = tripId ∧
        a.seatNumber = n)) ∘ (fun n2 =>
        { bookingId := (reclaim now s).nextBookingId, tripId := tripId,
          seatNumber := n2 : SeatAlloc }))) = xs.countP (fun n2 => n2 == n) := by
      refine List.countP_congr ?_
      intro n2 _
      show (decide ((reclaim now s).nextBookingId = bid ∧ tripId = tripId ∧ n2 = n) = true)
          ↔ ((n2 == n) = true)
      rw [decide_eq_true_iff, beq_iff_eq]
      constructor
      · rintro ⟨-, -, h⟩; exact h
      · intro h; exact ⟨hbid, rfl, h⟩
    rw [hcong]
    exact List.count_eq_one_of_mem hnodup hn
  · intro a ha haid
    have ha2 : a ∈ (reclaim now s).bookingSeats ++ xs.map (fun n2 =>
        { bookingId := (reclaim now s).nextBookingId, tripId := tripId,
          seatNumber := n2 : SeatAlloc }) := ha
    rcases List.mem_append.mp ha2 with hleft | hright
    · exfalso
      obtain ⟨ha0, -⟩ := mem_reclaim_bookingSeats.mp hleft
      obtain ⟨b0, hb0, hb0id⟩ := hown a ha0
      have hlt : a.bookingId < bid := by
        rw [← hb0id, ← hbid2]
        exact hbound b0 hb0
      rw [haid] at hlt
      exact Nat.lt_irrefl _ hlt
    · obtain ⟨n2, hn2, rfl⟩ := List.mem_map.mp hright
      exact ⟨rfl, hn2⟩

/-- Witness for C5: holding seats 3 and 4 on an empty store creates
exactly one allocation row for seat 3 of the new booking. -/
theorem createHold_success_shape_witness :
    (((createHold 1000 ("tk") 7 1 ("A") ("B") (some [3, 4]) store0).2).bookingSeats.countP
      (fun a => decide (a.bookingId = 1 ∧ a.tripId = 1 ∧ a.seatNumber = 3))) = 1 :=
  ((createHold_success_shape 1000 ("tk") 7 1 ("A") ("B") [3, 4] store0 1 181000
      (by decide) (by intro b hb; cases hb) (by intro a ha; cases ha)
      (by decide)).2.2.1) 3 (by decide)

/-! ### C6: scan returns exactly one of Invalid, Rejected, Valid -/

/-- Under a token match the scan query's `rows[0]` is that booking. -/
theorem scanLookup_eq_of_match {s : Store} {tok : String}
    (htrips : ∀ b ∈ s.bookings, b.tripId ∈ s.trips)
    (huniq : ∀ b1 ∈ s.bookings, ∀ b2 ∈ s.bookings,
      b1.qrToken = tok → b2.qrToken = tok → b1 = b2)
    {b : Booking} (hb : b ∈ s.bookings) (htokb : b.qrToken = tok) :
    scanLookup s tok = some b := by
  unfold scanLookup
  rcases hf : s.bookings.find? (scanRowMatch s.trips tok) with _ | b2
  · exfalso
    rw [List.find?_eq_none] at hf
    refine hf b hb ?_
    unfold scanRowMatch
    exact decide_eq_true_iff.mpr ⟨htokb, htrips b hb⟩
  · have hb2 := List.mem_of_find?_eq_some hf
    have hmatch := List.find?_some hf
    unfold scanRowMatch at hmatch
    rw [decide_eq_true_iff] at hmatch
    rw [huniq b2 hb2 b hb hmatch.1 htokb]

/-- C6: `scan(ticketToken)` returns Invalid when no booking carries the
token, Rejected with no mutation when the booking exists with a status
other than confirmed, and Valid with exactly one status update and one
appended scan record when the booking is confirmed.  Stated under the
store invariants that every booking's trip row exists (the query's inner
join) and that at most one booking carries the token. -/
theorem scan_trichotomy (now : Nat) (tok : String) (s : Store)
    (htok : tok ≠ (""))
    (htrips : ∀ b ∈ s.bookings, b.tripId ∈ s.trips)
    (huniq : ∀ b1 ∈ s.bookings, ∀ b2 ∈ s.bookings,
      b1.qrToken = tok → b2.qrToken = tok → b1 = b2) :
    ((∀ b ∈ s.bookings, b.qrToken ≠ tok) →
      (scan now tok s).1 = ScanResp.invalid ∧ (scan now tok s).2 = s) ∧
    (∀ b ∈ s.bookings, b.qrToken = tok → b.status ≠ BStatus.confirmed →
      (scan now tok s).1 = ScanResp.rejected ∧ (scan now tok s).2 = s) ∧
    (∀ b ∈ s.bookings, b.qrToken = tok → b.status = BStatus.confirmed →
      (scan now tok s).1 = ScanResp.valid b.id ∧
      (scan now tok s).2.bookings = s.bookings.map (fun x =>
        if x.id = b.id then { x with status := BStatus.used } else x) ∧
      (scan now tok s).2.scanLogs =
        s.scanLogs ++ [{ bookingId := b.id, scannedAt := now }] ∧
      (scan now tok s).2.bookingSeats = s.bookingSeats ∧
      (scan now tok s).2.users = s.users ∧
      (scan now tok s).2.trips = s.trips) := by
  refine ⟨?_, ?_, ?_⟩
  · intro hnone
    have h0 : scanLookup s tok = none := by
      unfold scanLookup
      rw [List.find?_eq_none]
      intro x hx
      unfold scanRowMatch
      rw [decide_eq_true_iff]
      rintro ⟨hxx, -⟩
      exact hnone x hx hxx
    unfold scan
    rw [if_neg htok, h0]
    exact ⟨rfl, rfl⟩
  · intro b hb htokb hnc
    unfold scan
    rw [if_neg htok, scanLookup_eq_of_match htrips huniq hb htokb]
    dsimp only
    rw [if_pos hnc]
    exact ⟨rfl, rfl⟩
  · intro b hb htokb hc
    unfold scan
    rw [if_neg htok, scanLookup_eq_of_match htrips huniq hb htokb]
    dsimp only
    rw [if_neg (fun hh => hh hc)]
    exact ⟨rfl, rfl, rfl, rfl, rfl, rfl⟩

/-- Witness for C6: scanning the confirmed booking of `storeConf` returns
Valid with its booking id. -/
theorem scan_trichotomy_witness :
    (scan 1000 ("tok-c") storeConf).1 = ScanResp.valid bkConf.id :=
  ((scan_trichotomy 1000 ("tok-c") storeConf (by decide)
      (by
        intro b hb
        have hb2 : b = bkConf := List.mem_singleton.mp hb
        subst hb2
        exact List.mem_singleton.mpr rfl)
      (by
        intro b1 h1 b2 h2 _ _
        rw [List.mem_singleton.mp h1, List.mem_singleton.mp h2])).2.2
    bkConf (List.mem_singleton.mpr rfl) rfl rfl).1

/-! ### C2: a ticket is consumed at most once -/

/-- Both well-formedness conditions on booking ids together. -/
def uniqueIds (s : Store) : Prop :=
  distinctIds s ∧ idsBounded s

/-- The invariant established by a Valid scan of `tok`: the booking the
scan query would return for `tok` is in status used. -/
def usedAtFirst (s : Store) (tok : String) : Prop :=
  ∃ b, scanLookup s tok = some b ∧ b.status = BStatus.used

/-- `find?` commutes with a map that preserves the predicate. -/
theorem find?_map_pres {α : Type} {l : List α} {p : α → Bool} {b : α}
    (f : α → α) (hpf : ∀ x, p (f x) = p x)
    (h : l.find? p = some b) : (l.map f).find? p = some (f b) := by
  rw [List.find?_map]
  have hpq : p ∘ f = p := funext hpf
  rw [hpq, h]
  rfl

/-- The reclaim delete keeps every booking id distinct and bounded. -/
theorem uniqueIds_reclaim (now : Nat) {s : Store} (h : uniqueIds s) :
    uniqueIds (reclaim now s) := by
  obtain ⟨hd, hb⟩ := h
  refine ⟨List.Pairwise.sublist (List.filter_sublist _) hd, ?_⟩
  intro b hbm
  exact hb b ((List.filter_sublist _).subset hbm)

/-- A status-only update keeps booking ids pairwise distinct. -/
theorem pairwise_ids_map {l : List Booking} (f : Booking → Booking)
    (hid : ∀ b, (f b).id = b.id)
    (hd : l.Pairwise fun a b => a.id ≠ b.id) :
    (l.map f).Pairwise fun a b => a.id ≠ b.id := by
  rw [List.pairwise_map]
  refine hd.imp ?_
  intro a b hab
  rw [hid, hid]
  exact hab

/-- The per-booking update of the confirm handler. -/
def confirmUpd (bookingId : Nat) (b : Booking) : Booking :=
  if b.id = bookingId then { b with status := BStatus.confirmed } else b

/-- The per-booking update of the scan handler. -/
def scanUpd (bid : Nat) (b : Booking) : Booking :=
  if b.id = bid then { b with status := BStatus.used } else b

theorem confirmUpd_id (bookingId : Nat) (b : Booking) :
    (confirmUpd bookingId b).id = b.id := by
  unfold confirmUpd
  by_cases h : b.id = bookingId
  · rw [if_pos h]
  · rw [if_neg h]

theorem scanUpd_id (bid : Nat) (b : Booking) :
    (scanUpd bid b).id = b.id := by
  unfold scanUpd
  by_cases h : b.id = bid
  · rw [if_pos h]
  · rw [if_neg h]

theorem scanRowMatch_confirmUpd (trips : List Nat) (tok : String)
    (bookingId : Nat) (x : Booking) :
    scanRowMatch trips tok (confirmUpd bookingId x) = scanRowMatch trips tok x := by
  unfold confirmUpd
  by_cases h : x.id = bookingId
  · rw [if_pos h]; rfl
  · rw [if_neg h]

theorem scanRowMatch_scanUpd (trips : List Nat) (tok : String)
    (bid : Nat) (x : Booking) :
    scanRowMatch trips tok (scanUpd bid x) = scanRowMatch trips tok x := by
  unfold scanUpd
  by_cases h : x.id = bid
  · rw [if_pos h]; rfl
  · rw [if_neg h]

/-- Every operation keeps booking ids distinct and bounded. -/
theorem uniqueIds_applyOp {s : Store} (op : Op) (h : uniqueIds s) :
    uniqueIds (applyOp s op) := by
  obtain ⟨hd, hb⟩ := h
  cases op with
  | holdOp n t u trip p d seats =>
    show uniqueIds (createHold n t u trip p d seats s).2
    by_cases hv : trip = 0 ∨ p = ("") ∨ d = ("")
    · unfold createHold; rw [if_pos hv]; exact ⟨hd, hb⟩
    · match seats with
      | none => unfold createHold; rw [if_neg hv]; exact ⟨hd, hb⟩
      | some xs =>
        by_cases hxs : xs = []
        · subst hxs
          unfold createHold
          rw [if_neg hv]
          simp only [if_pos]
          exact ⟨hd, hb⟩
        · rcases createHold_branches n t u trip p d xs s hv hxs with
            ⟨_, heq⟩ | ⟨_, heq⟩
          · rw [heq]; exact ⟨hd, hb⟩
          · rw [heq]
            obtain ⟨hd1, hb1⟩ := uniqueIds_reclaim n (s := s) ⟨hd, hb⟩
            constructor
            · show ((reclaim n s).bookings ++
                [newBooking n t u trip p d xs (reclaim n s).nextBookingId]).Pairwise _
              rw [List.pairwise_append]
              refine ⟨hd1, List.pairwise_singleton _ _, ?_⟩
              intro a ha c hc
              have hc2 : c = newBooking n t u trip p d xs (reclaim n s).nextBookingId :=
                List.mem_singleton.mp hc
              subst hc2
              have := hb1 a ha
              exact Nat.ne_of_lt this
            · intro c hc
              show c.id < (reclaim n s).nextBookingId + 1
              rcases List.mem_append.mp hc with hc1 | hc1
              · exact Nat.lt_succ_of_lt (hb1 c hc1)
              · have hc2 : c = newBooking n t u trip p d xs (reclaim n s).nextBookingId :=
                  List.mem_singleton.mp hc1
                subst hc2
                exact Nat.lt_succ_self _
  | confirmOp n u bid =>
    show uniqueIds (confirm n u bid s).2
    unfold confirm
    by_cases h0 : bid = 0
    · rw [if_pos h0]; exact ⟨hd, hb⟩
    · rw [if_neg h0]
      by_cases hany : s.bookings.any (confirmMatch n u bid) = true
      · rw [if_pos hany]
        refine ⟨pairwise_ids_map (confirmUpd bid) (confirmUpd_id bid) hd, ?_⟩
        intro c hc
        obtain ⟨c0, hc0, rfl⟩ := List.mem_map.mp hc
        show (confirmUpd bid c0).id < s.nextBookingId
        rw [confirmUpd_id]
        exact hb c0 hc0
      · rw [if_neg hany]; exact ⟨hd, hb⟩
  | sweepOp n =>
    exact uniqueIds_reclaim n ⟨hd, hb⟩
  | scanOp n tok2 =>
    show uniqueIds (scan n tok2 s).2
    unfold scan
    by_cases h0 : tok2 = ("")
    · rw [if_pos h0]; exact ⟨hd, hb⟩
    · rw [if_neg h0]
      rcases hl : scanLookup s tok2 with _ | c
      · exact ⟨hd, hb⟩
      · dsimp only
        by_cases hc : c.status ≠ BStatus.confirmed
        · rw [if_pos hc]; exact ⟨hd, hb⟩
        · rw [if_neg hc]
          refine ⟨pairwise_ids_map (scanUpd c.id) (scanUpd_id c.id) hd, ?_⟩
          intro x hx
          obtain ⟨x0, hx0, rfl⟩ := List.mem_map.mp hx
          show (scanUpd c.id x0).id < s.nextBookingId
          rw [scanUpd_id]
          exact hb x0 hx0

/-- The reclaim delete preserves the used-ticket invariant: a used booking
is never deleted, and `rows[0]` for its token is unchanged. -/
theorem usedAtFirst_reclaim (now : Nat) {s : Store} {tok : String}
    (h : usedAtFirst s tok) : usedAtFirst (reclaim now s) tok := by
  obtain ⟨b, hf, hst⟩ := h
  refine ⟨b, ?_, hst⟩
  show (s.bookings.filter (fun x => !expiredHeld now x)).find?
    (scanRowMatch s.trips tok) = some b
  refine find?_filter_keep hf ?_
  show (!expiredHeld now b) = true
  rw [Bool.not_eq_true']
  unfold expiredHeld
  rw [decide_eq_false_iff_not]
  rintro ⟨hh, -⟩
  rw [hst] at hh
  exact BStatus.noConfusion hh

/-- Every operation preserves the used-ticket invariant for `tok`. -/
theorem usedAtFirst_applyOp {s : Store} {tok : String} (op : Op)
    (hids : distinctIds s) (h : usedAtFirst s tok) :
    usedAtFirst (applyOp s op) tok := by
  cases op with
  | holdOp n t u trip p d seats =>
    show usedAtFirst (createHold n t u trip p d seats s).2 tok
    by_cases hv : trip = 0 ∨ p = ("") ∨ d = ("")
    · unfold createHold; rw [if_pos hv]; exact h
    · match seats with
      | none => unfold createHold; rw [if_neg hv]; exact h
      | some xs =>
        by_cases hxs : xs = []
        · subst hxs
          unfold createHold
          rw [if_neg hv]
          simp only [if_pos]
          exact h
        · rcases createHold_branches n t u trip p d xs s hv hxs with
            ⟨_, heq⟩ | ⟨_, heq⟩
          · rw [heq]; exact h
          · rw [heq]
            obtain ⟨b, hf1, hst⟩ := usedAtFirst_reclaim n h
            refine ⟨b, ?_, hst⟩
            show ((reclaim n s).bookings ++
              [newBooking n t u trip p d xs (reclaim n s).nextBookingId]).find?
                (scanRowMatch s.trips tok) = some b
            have hf2 : List.find? (scanRowMatch s.trips tok) (reclaim n s).bookings =
              some b := hf1
            rw [List.find?_append, hf2]
            rfl
  | confirmOp n u bid =>
    show usedAtFirst (confirm n u bid s).2 tok
    obtain ⟨b, hf, hst⟩ := h
    unfold confirm
    by_cases h0 : bid = 0
    · rw [if_pos h0]; exact ⟨b, hf, hst⟩
    · rw [if_neg h0]
      by_cases hany : s.bookings.any (confirmMatch n u bid) = true
      · rw [if_pos hany]
        refine ⟨confirmUpd bid b, ?_, ?_⟩
        · show (s.bookings.map (confirmUpd bid)).find?
            (scanRowMatch s.trips tok) = some (confirmUpd bid b)
          exact find?_map_pres (confirmUpd bid)
            (scanRowMatch_confirmUpd s.trips tok bid) hf
        · have hbmem : b ∈ s.bookings := List.mem_of_find?_eq_some hf
          obtain ⟨c, hcmem, hcm⟩ := List.any_eq_true.mp hany
          unfold confirmMatch at hcm
          rw [decide_eq_true_iff] at hcm
          obtain ⟨hcid, -, hcheld, -⟩ := hcm
          have hne : b.id ≠ bid := by
            intro hbeq
            have hcb : c ≠ b := by
              intro hcb
              rw [hcb, hst] at hcheld
              exact BStatus.noConfusion hcheld
            have hsymm : Symmetric (fun x y : Booking => x.id ≠ y.id) :=
              fun x y hh he => hh he.symm
            exact (List.Pairwise.forall hsymm hids hcmem hbmem hcb) (by rw [hcid, hbeq])
          show (confirmUpd bid b).status = BStatus.used
          unfold confirmUpd
          rw [if_neg hne]
          exact hst
      · rw [if_neg hany]; exact ⟨b, hf, hst⟩
  | sweepOp n =>
    exact usedAtFirst_reclaim n h
  | scanOp n tok2 =>
    show usedAtFirst (scan n tok2 s).2 tok
    obtain ⟨b, hf, hst⟩ := h
    unfold scan
    by_cases h0 : tok2 = ("")
    · rw [if_pos h0]; exact ⟨b, hf, hst⟩
    · rw [if_neg h0]
      rcases hl : scanLookup s tok2 with _ | c
      · exact ⟨b, hf, hst⟩
      · dsimp only
        by_cases hc : c.status ≠ BStatus.confirmed
        · rw [if_pos hc]; exact ⟨b, hf, hst⟩
        · rw [if_neg hc]
          push_neg at hc
          have hcb : c ≠ b := by
            intro hcb
            rw [hcb, hst] at hc
            exact BStatus.noConfusion hc
          have hcmem : c ∈ s.bookings := by
            have hl2 : s.bookings.find? (scanRowMatch s.trips tok2) = some c := hl
            exact List.mem_of_find?_eq_some hl2
          have hbmem : b ∈ s.bookings := List.mem_of_find?_eq_some hf
          have hne : b.id ≠ c.id := by
            intro hbeq
            have hsymm : Symmetric (fun x y : Booking => x.id ≠ y.id) :=
              fun x y hh he => hh he.symm
            exact (List.Pairwise.forall hsymm hids hbmem hcmem
              (fun hh => hcb hh.symm)) hbeq
          refine ⟨scanUpd c.id b, ?_, ?_⟩
          · show (s.bookings.map (scanUpd c.id)).find?
              (scanRowMatch s.trips tok) = some (scanUpd c.id b)
            exact find?_map_pres (scanUpd c.id)
              (scanRowMatch_scanUpd s.trips tok c.id) hf
          · show (scanUpd c.id b).status = BStatus.used
            unfold scanUpd
            rw [if_neg hne]
            exact hst

/-- The two invariants carried along any operation sequence. -/
theorem usedAtFirst_applyOps {s : Store} {tok : String} (ops : List Op)
    (hids : uniqueIds s) (h : usedAtFirst s tok) :
    usedAtFirst (applyOps s ops) tok ∧ uniqueIds (applyOps s ops) := by
  induction ops generalizing s with
  | nil => exact ⟨h, hids⟩
  | cons op rest ih =>
    show usedAtFirst (applyOps (applyOp s op) rest) tok ∧
      uniqueIds (applyOps (applyOp s op) rest)
    exact ih (uniqueIds_applyOp op hids) (usedAtFirst_applyOp op hids.1 h)

/-- A scan of a token whose `rows[0]` booking is used returns Rejected. -/
theorem scan_rejected_of_usedAtFirst {s : Store} {tok : String} (now : Nat)
    (h0 : tok ≠ ("")) (h : usedAtFirst s tok) :
    (scan now tok s).1 = ScanResp.rejected := by
  obtain ⟨b, hf, hst⟩ := h
  unfold scan
  rw [if_neg h0, hf]
  dsimp only
  rw [if_pos (by rw [hst]; exact fun hh => BStatus.noConfusion hh)]

/-- C2: once a scan of a ticket token has returned Valid, every later scan
of the same token — after any sequence of hold, confirm, sweep and scan
operations in which no hold generates that same token (the code draws
tokens from `crypto.randomUUID()`, so a collision has negligible
probability) — returns Rejected and observes the booking in status used.
Hence at most one scan of a token ever returns Valid, and the
confirmed-to-used transition for that token happens at most once. -/
theorem scan_valid_at_most_once (s : Store) (tok : String) (now now2 : Nat)
    (bid : Nat) (ops : List Op)
    (hids : uniqueIds s)
    (hfresh : ∀ op ∈ ops, holdTokenOf op ≠ some tok)
    (hvalid : (scan now tok s).1 = ScanResp.valid bid) :
    (scan now2 tok (applyOps (scan now tok s).2 ops)).1 = ScanResp.rejected ∧
    ∃ b, scanLookup (applyOps (scan now tok s).2 ops) tok = some b ∧
      b.status = BStatus.used := by
  have h0 : tok ≠ ("") := by
    intro h0
    unfold scan at hvalid
    rw [if_pos h0] at hvalid
    exact ScanResp.noConfusion hvalid
  obtain ⟨c, hl, hcst⟩ : ∃ c, scanLookup s tok = some c ∧
      c.status = BStatus.confirmed := by
    unfold scan at hvalid
    rw [if_neg h0] at hvalid
    rcases hl : scanLookup s tok with _ | c
    · rw [hl] at hvalid
      exact ScanResp.noConfusion hvalid
    · rw [hl] at hvalid
      dsimp only at hvalid
      by_cases hc : c.status ≠ BStatus.confirmed
      · rw [if_pos hc] at hvalid
        exact ScanResp.noConfusion hvalid
      · push_neg at hc
        exact ⟨c, rfl, hc⟩
  have hs2 : (scan now tok s).2 =
      { s with
        bookings := s.bookings.map (scanUpd c.id)
        scanLogs := s.scanLogs ++ [{ bookingId := c.id, scannedAt := now }] } := by
    unfold scan
    rw [if_neg h0, hl]
    dsimp only
    rw [if_neg (fun hh => hh hcst)]
    rfl
  have hused2 : usedAtFirst (scan now tok s).2 tok := by
    rw [hs2]
    refine ⟨scanUpd c.id c, ?_, ?_⟩
    · show (s.bookings.map (scanUpd c.id)).find?
        (scanRowMatch s.trips tok) = some (scanUpd c.id c)
      exact find?_map_pres (scanUpd c.id) (scanRowMatch_scanUpd s.trips tok c.id) hl
    · show (scanUpd c.id c).status = BStatus.used
      unfold scanUpd
      rw [if_pos rfl]
  have hids2 : uniqueIds (scan now tok s).2 :=
    uniqueIds_applyOp (Op.scanOp now tok) hids
  obtain ⟨hfin, -⟩ := usedAtFirst_applyOps ops hids2 hused2
  exact ⟨scan_rejected_of_usedAtFirst now2 h0 hfin, hfin⟩

/-- Witness for C2: scan `storeConf`'s ticket (Valid), run a sweep, scan
it again: Rejected. -/
theorem scan_valid_at_most_once_witness :
    (scan 2000 ("tok-c") (applyOps (scan 1000 ("tok-c") storeConf).2
      [Op.sweepOp 1500])).1 = ScanResp.rejected :=
  (scan_valid_at_most_once storeConf ("tok-c") 1000 2000 1 [Op.sweepOp 1500]
    ⟨List.pairwise_singleton _ _, by
      intro b hb
      have hb2 : b = bkConf := List.mem_singleton.mp hb
      subst hb2
      decide⟩
    (by decide) (by decide)).1
